import Mathlib

set_option maxRecDepth 10000

/-!
# Verification of the PITimer driver (src/PITimer.cpp)

A shallow embedding of the PITimer periodic-interrupt-timer driver.
Machine integers are modelled as `Nat` with explicit range conditions
(`uint32` values are naturals below `2 ^ 32`).  The C `float` arithmetic
of the period/frequency conversions is modelled bit-exactly as IEEE-754
binary32: every finite binary32 value is an integer multiple of `2 ^ (-149)`
(the smallest subnormal), so a float is represented by that integer
(`value * 2 ^ 149 : ℤ`), and each operation rounds its exact rational
result to the nearest representable value with ties to even
(`f32ofRat`), exactly as the hardware does in the ranges the driver uses
(no overflow to infinity is modelled; all values in the theorems stay far
below the binary32 maximum).  Fields of the C++ object and the
per-channel hardware registers it writes are collected in one state
structure `PITimer`; every driver operation is a pure function on that
state.

Two constants live outside `src/`:
* `valueMin` is declared in `PITimer.h`, which is not part of the sources;
  the spec describes it only as "a fixed minimum safe cycle count", so it is
  kept as an explicit parameter of every operation that uses it.
* `F_BUS` comes from the platform header `mk20dx128.h`; the spec treats it
  as a compile-time constant and uses 48 000 000 in its scenarios, so it is
  kept as an explicit parameter `fbus` and instantiated at 48 000 000 for
  the scenario theorems.
-/

namespace PIT

/-- `UINT32_MAX` from `<stdint.h>`: the largest representable `uint32_t`. -/
def UINT32_MAX : ℕ := 2 ^ 32 - 1

/-- State of one timer channel: the C++ member variables of `PITimer`
(`myID`, `myValue`, `isRunning`, `myISR`) together with the per-channel
hardware registers the driver writes (the reload register `PIT_LDVALn`,
the control register `PIT_TCTRLn`, the pending-interrupt flag `PIT_TFLGn`
modelled as a Boolean, and the NVIC enable bit for the channel's vector).
The callback pointer `myISR` is modelled as an abstract label (`Option ℕ`,
`none` standing for the null pointer a static object starts with). -/
structure PITimer where
  myID : ℕ
  myValue : ℕ
  isRunning : Bool
  myISR : Option ℕ
  ldval : ℕ
  tctrl : ℕ
  tflgPending : Bool
  nvicEnabled : Bool
deriving DecidableEq

/-- `PITimer::writeValue`: copies `myValue` into the channel's hardware
reload register `PIT_LDVALn`. -/
def writeValue (t : PITimer) : PITimer :=
  { t with ldval := t.myValue }

/-- `PITimer::value(uint32_t)` (the setter, spec name `setValue`):
`if (newValue == UINT32_MAX) newValue = UINT32_MAX - 1;
 else if (newValue < valueMin) newValue = valueMin;
 myValue = newValue; writeValue();`.
`valueMin` is the constant from the missing header `PITimer.h`, kept as a
parameter. -/
def setValue (valueMin : ℕ) (t : PITimer) (newValue : ℕ) : PITimer :=
  let nv := if newValue = UINT32_MAX then UINT32_MAX - 1
            else if newValue < valueMin then valueMin
            else newValue
  writeValue { t with myValue := nv }

/-- `PITimer::value()` (the getter, spec name `getValue`): returns the
stored `myValue`, not a hardware read. -/
def getValue (t : PITimer) : ℕ :=
  t.myValue

/-- Bit length of a natural number (position of the highest set bit plus
one), by fuel-bounded halving so that it reduces by kernel computation;
the fuel 400 covers every number below `2 ^ 400`, far above anything the
model produces. -/
def bitlenAux : ℕ → ℕ → ℕ
  | 0, _ => 0
  | fuel + 1, m => if m = 0 then 0 else bitlenAux fuel (m / 2) + 1

/-- Bit length of a natural number below `2 ^ 400`. -/
def bitlen (m : ℕ) : ℕ :=
  bitlenAux 400 m

/-- Round the nonnegative rational `N / D` to the nearest natural number,
ties to even — the integer-rounding core of IEEE-754
round-to-nearest-even. -/
def rnePos (N D : ℕ) : ℕ :=
  let j0 := N / D
  let r2 := 2 * (N % D)
  if D < r2 then j0 + 1
  else if r2 < D then j0
  else if j0 % 2 = 0 then j0 else j0 + 1

/-- Round the exact rational `num / den` to the nearest IEEE-754 binary32
value (ties to even), returned scaled by `2 ^ 149`.  The binade exponent
`e` (with `2 ^ e ≤ |num / den| < 2 ^ (e + 1)`) is found from the bit
lengths of `num` and `den`; within that binade the representable values
are the multiples of `2 ^ (e - 23)` (of `2 ^ (-149)` below the normal
range, hence the clamp of the grid exponent at 0), and `rnePos` picks the
nearest such multiple with ties to even.  Overflow to infinity is not
modelled (inputs stay far below `2 ^ 128`); `den = 0` returns the junk
value 0 and is never reached by the driver model. -/
def f32ofRat (num : ℤ) (den : ℕ) : ℤ :=
  if num = 0 ∨ den = 0 then 0
  else
    let m : ℕ := num.natAbs
    let bm : ℕ := bitlen m
    let bb : ℕ := bitlen den
    let e : ℤ := if den * 2 ^ bm ≤ m * 2 ^ bb then (bm : ℤ) - (bb : ℤ) else (bm : ℤ) - (bb : ℤ) - 1
    let gexp : ℕ := (e + 126).toNat
    let S : ℤ := 149 - (gexp : ℤ)
    let j : ℕ := if 0 ≤ S then rnePos (m * 2 ^ S.toNat) den else rnePos m (den * 2 ^ (-S).toNat)
    let mag : ℤ := (j : ℤ) * 2 ^ gexp
    if num < 0 then -mag else mag

/-- Binary32 multiplication: the exact product of the two scaled values is
`a * b / 2 ^ 298`, rounded to the nearest representable value. -/
def fmul (a b : ℤ) : ℤ :=
  f32ofRat (a * b) (2 ^ 149 * 2 ^ 149)

/-- Binary32 subtraction: the exact difference `(a - b) / 2 ^ 149`,
rounded to the nearest representable value. -/
def fsub (a b : ℤ) : ℤ :=
  f32ofRat (a - b) (2 ^ 149)

/-- Binary32 division: the exact quotient of the scaled values is `a / b`,
rounded to the nearest representable value; division by zero (C undefined
behaviour on floats without IEEE traps, an infinity or NaN) is given the
junk value 0 and excluded by hypothesis in every theorem that uses it. -/
def fdivF (a b : ℤ) : ℤ :=
  if b = 0 then 0 else f32ofRat (a * b.sign) b.natAbs

/-- `PITimer::round(float)`: `return floor(value + 0.5);`.  The argument
is promoted to double, `+ 0.5` and `floor` are exact in double for every
magnitude the driver meaningfully uses (below `2 ^ 52`; beyond the uint32
range the result is discarded by saturation anyway), and the double
result is rounded back to binary32 on return — modelled as the exact
`⌊v + 1/2⌋` (floor division on the scaled integer) followed by binary32
rounding of that integer. -/
def froundC (a : ℤ) : ℤ :=
  f32ofRat ((a + 2 ^ 148).fdiv (2 ^ 149)) 1

/-- Conversion of an integer (such as the `int` constant `F_BUS`) to
binary32, rounding to nearest if it needs more than 24 bits. -/
def f32ofNat (n : ℕ) : ℤ :=
  f32ofRat n 1

/-- The binary32 constant `1.0f` (the literal `1` subtracted in the
period/frequency write paths), scaled by `2 ^ 149`. -/
def f32one : ℤ :=
  2 ^ 149

/-- The exact rational value of a scaled binary32 representation. -/
def fval (s : ℤ) : ℚ :=
  (s : ℚ) / 2 ^ 149

/-- Conversion of the float expression `round(...) - 1` to `uint32_t` at
the assignment in `period`/`frequency`: truncation toward zero on the
representable range `[0, 2^32)`; outside it ISO C++ leaves the conversion
undefined, while the ARM EABI runtime used on this code's only target
(`mk20dx128.h`, Cortex-M) saturates — negative values to 0, values at or
above `2 ^ 32` to `UINT32_MAX` — which `Int.toNat` and `min` reproduce. -/
def f2u32 (s : ℤ) : ℕ :=
  min (s.toNat / 2 ^ 149) (2 ^ 32 - 1)

/-- The raw value computed by `PITimer::period(float)`:
`round(F_BUS * newPeriod) - 1` evaluated in binary32 (`round` returns
`float`, so the subtraction is a float subtraction), then converted to
`uint32_t`. -/
def periodRaw (fbus : ℕ) (newPeriod : ℤ) : ℕ :=
  f2u32 (fsub (froundC (fmul (f32ofNat fbus) newPeriod)) f32one)

/-- `PITimer::period(float)` (spec name `setPeriod`):
`uint32_t newValue = round(F_BUS * newPeriod) - 1; value(newValue);`,
with the right-hand side evaluated in binary32 (`periodRaw`).  The
argument is the scaled binary32 representation of the float parameter. -/
def setPeriod (valueMin fbus : ℕ) (t : PITimer) (newPeriod : ℤ) : PITimer :=
  setValue valueMin t (periodRaw fbus newPeriod)

/-- The raw value computed by `PITimer::frequency(float)`:
`round(F_BUS / newFrequency) - 1` evaluated in binary32, then converted
to `uint32_t`. -/
def frequencyRaw (fbus : ℕ) (newFrequency : ℤ) : ℕ :=
  f2u32 (fsub (froundC (fdivF (f32ofNat fbus) newFrequency)) f32one)

/-- `PITimer::frequency(float)` (spec name `setFrequency`):
`uint32_t newValue = round(F_BUS / newFrequency) - 1; value(newValue);`,
with the right-hand side evaluated in binary32 (`frequencyRaw`).
Division by zero is the unguarded edge case the spec documents; every
theorem about this function assumes a positive argument. -/
def setFrequency (valueMin fbus : ℕ) (t : PITimer) (newFrequency : ℤ) : PITimer :=
  setValue valueMin t (frequencyRaw fbus newFrequency)

/-- `PITimer::period()` (spec name `getPeriod`):
`return (value() + 1) / float(F_BUS);`.  The sum `value() + 1` is computed
in `uint32_t` arithmetic, hence the explicit `% 2 ^ 32`. -/
def getPeriod (fbus : ℕ) (t : PITimer) : ℚ :=
  (((getValue t + 1) % 2 ^ 32 : ℕ) : ℚ) / (fbus : ℚ)

/-- `PITimer::frequency()` (spec name `getFrequency`):
`return float(F_BUS) / (value() + 1);` with the same `uint32_t` sum. -/
def getFrequency (fbus : ℕ) (t : PITimer) : ℚ :=
  (fbus : ℚ) / (((getValue t + 1) % 2 ^ 32 : ℕ) : ℚ)

/-- `PITimer::PITimer(uint8_t)`: records the channel id, sets
`isRunning := false`, and calls `value(F_BUS)`.  A static C++ object is
zero-initialized before the constructor runs, so `myISR` starts as the null
pointer and the modelled registers start cleared.  The two global
enable writes (`SIM_SCGC6`, `PIT_MCR`) touch shared peripheral state that no
claim mentions and are not modelled. -/
def init (valueMin fbus : ℕ) (timerID : ℕ) : PITimer :=
  setValue valueMin
    { myID := timerID, myValue := 0, isRunning := false, myISR := none,
      ldval := 0, tctrl := 0, tflgPending := false, nvicEnabled := false }
    fbus

/-- `PITimer::start(void (*)())`: stores the callback, sets
`isRunning = true`, arms the control register (`PIT_TCTRLn = 3`) and enables
the channel's NVIC vector. -/
def start (t : PITimer) (newISR : ℕ) : PITimer :=
  { t with myISR := some newISR, isRunning := true, tctrl := 3, nvicEnabled := true }

/-- `PITimer::stop()`: sets `isRunning = false`, disables the NVIC vector
and clears the control register (`PIT_TCTRLn = 0`). -/
def stop (t : PITimer) : PITimer :=
  { t with isRunning := false, nvicEnabled := false, tctrl := 0 }

/-- `PITimer::reset()`: pulses the control register
(`PIT_TCTRLn = 1; PIT_TCTRLn = 3;`); the state after the pulse has
`tctrl = 3` and nothing else changed. -/
def reset (t : PITimer) : PITimer :=
  { { t with tctrl := 1 } with tctrl := 3 }

/-- `PITimer::clear()`: writes 1 to the channel's `PIT_TFLGn` register,
which is write-1-to-clear, so the pending-interrupt flag becomes false. -/
def clear (t : PITimer) : PITimer :=
  { t with tflgPending := false }

/-- `PITimer::running()` (spec name `isRunning`). -/
def running (t : PITimer) : Bool :=
  t.isRunning

/-- Observable actions of an interrupt dispatch, in the order the ISR
wrapper performs them. -/
inductive Action where
  | clearFlag : ℕ → Action
  | callback : Option ℕ → Action
deriving DecidableEq

/-- The ISR wrapper `void pitN_isr() { PITimerN.clear(); PITimerN.myISR(); }`
for the channel owning state `t`, as the ordered list of its observable
actions: first the flag acknowledgment on that channel, then the invocation
of the currently registered callback. -/
def pitISR (t : PITimer) : List Action :=
  [Action.clearFlag t.myID, Action.callback t.myISR]

/-- The invariant of §3 of the spec on the stored raw value:
`valueMin ≤ raw_value ≤ UINT32_MAX − 1`. -/
def valueInv (valueMin : ℕ) (t : PITimer) : Prop :=
  valueMin ≤ t.myValue ∧ t.myValue ≤ UINT32_MAX - 1

instance (valueMin : ℕ) (t : PITimer) : Decidable (valueInv valueMin t) := by
  unfold valueInv; infer_instance

/-- Raw value of the period write path as the spec words it:
"`raw = round(bus_frequency * seconds) − 1`", with round-half-up
`floor(x + 0.5)`.  Spec-side definition, to be compared with `setPeriod`. -/
def spec_setPeriod_raw (fbus : ℕ) (seconds : ℚ) : ℤ :=
  Int.floor ((fbus : ℚ) * seconds + 1 / 2) - 1

/-- Raw value of the frequency write path as the spec words it:
"`raw = round(bus_frequency / hz) − 1`".  Spec-side definition, to be
compared with `setFrequency`. -/
def spec_setFrequency_raw (fbus : ℕ) (hz : ℚ) : ℤ :=
  Int.floor ((fbus : ℚ) / hz + 1 / 2) - 1

/-- A sample channel state used by the concrete witnesses: channel 0
constructed with a representative `valueMin` of 720 cycles and the spec's
48 MHz bus clock. -/
def sampleT : PITimer :=
  init 720 48000000 0

example : getValue sampleT = 48000000 := by decide
example : getValue (setValue 720 sampleT 10) = 720 := by decide
example : getValue (setValue 720 sampleT UINT32_MAX) = UINT32_MAX - 1 := by decide

/-! ## Helper lemmas (shared) -/

/-- A nonpositive exact value rounds to a nonpositive binary32 value. -/
lemma f32ofRat_nonpos {num : ℤ} {den : ℕ} (h : num ≤ 0) : f32ofRat num den ≤ 0 := by
  simp only [f32ofRat]
  split_ifs
  all_goals first
    | exact le_refl 0
    | exact neg_nonpos.mpr (by positivity)
    | (exfalso; omega)

/-- The saturating float-to-`uint32` conversion sends every nonpositive
value to 0. -/
lemma f2u32_zero {s : ℤ} (h : s ≤ 0) : f2u32 s = 0 := by
  simp only [f2u32]
  omega

/-- The saturating float-to-`uint32` conversion never exceeds
`UINT32_MAX`. -/
lemma f2u32_le (s : ℤ) : f2u32 s ≤ UINT32_MAX := by
  simp only [f2u32, UINT32_MAX]
  omega

/-- `setValue` stores its argument unchanged when it is in the clamp-free
range. -/
lemma getValue_setValue_of_le (valueMin v : ℕ) (t : PITimer)
    (h1 : valueMin ≤ v) (h2 : v ≤ UINT32_MAX - 1) :
    getValue (setValue valueMin t v) = v := by
  simp only [setValue, getValue, writeValue, UINT32_MAX] at *
  split_ifs <;> omega

/-- `setValue` establishes the raw-value invariant for any `uint32` input,
provided the minimum itself is below the excluded maximum. -/
lemma setValue_inv (valueMin v : ℕ) (t : PITimer) (hmin : valueMin ≤ UINT32_MAX - 1)
    (hv : v ≤ UINT32_MAX) : valueInv valueMin (setValue valueMin t v) := by
  simp only [valueInv, setValue, writeValue, UINT32_MAX] at *
  split_ifs <;> constructor <;> omega

/-- Concrete binary32 evaluation: `setPeriod(1.0)` at 48 MHz computes the
raw value 48,000,000 — the float subtraction `48000000.0f - 1.0f` rounds
back to `48000000.0f` (the representable spacing at that magnitude is 4,
and 47,999,999 is 1 away from 48,000,000 but 3 away from 47,999,996). -/
lemma periodRaw_one : periodRaw 48000000 f32one = 48000000 := by
  decide

/-- Concrete binary32 evaluation: `setPeriod(0.25)` at 48 MHz computes the
raw value 11,999,999 exactly (every step is below `2 ^ 24`, where binary32
carries integers exactly). -/
lemma periodRaw_quarter : periodRaw 48000000 (2 ^ 147) = 11999999 := by
  decide

/-- Concrete binary32 evaluation at the representable period
`p = 11744052 / 2 ^ 24 ≈ 0.70000005`: the float product
`48000000.0f * p` rounds the exact 33,600,002.29 cycles up to 33,600,004
(spacing 4), and the raw value stays 33,600,004 after the absorbed float
subtraction of 1. -/
lemma periodRaw_p0 : periodRaw 48000000 (11744052 * 2 ^ 125) = 33600004 := by
  decide

/-- Concrete binary32 evaluation: `setFrequency(1000.0)` at 48 MHz
computes the raw value 47,999 (exact: 48,000 and 47,999 are both below
`2 ^ 24`). -/
lemma frequencyRaw_1000 : frequencyRaw 48000000 (1000 * 2 ^ 149) = 47999 := by
  decide

/-- Concrete binary32 evaluation: `setFrequency(2.0)` at 48 MHz computes
the raw value 24,000,000 — the float subtraction `24000000.0f - 1.0f`
ties between 23,999,998 and 24,000,000 (spacing 2) and rounds to the even
mantissa, 24,000,000. -/
lemma frequencyRaw_two : frequencyRaw 48000000 (2 * 2 ^ 149) = 24000000 := by
  decide

/-- The ideal spec-side raw value for a one-second period at 48 MHz. -/
lemma spec_setPeriod_raw_one : spec_setPeriod_raw 48000000 1 = 47999999 := by
  unfold spec_setPeriod_raw
  norm_num

/-- The ideal spec-side raw value for a quarter-second period at 48 MHz. -/
lemma spec_setPeriod_raw_quarter : spec_setPeriod_raw 48000000 (1 / 4) = 11999999 := by
  unfold spec_setPeriod_raw
  norm_num

/-- The ideal spec-side raw value for 1 kHz at 48 MHz. -/
lemma spec_setFrequency_raw_1000 : spec_setFrequency_raw 48000000 1000 = 47999 := by
  unfold spec_setFrequency_raw
  norm_num

/-- The ideal spec-side raw value for 2 Hz at 48 MHz. -/
lemma spec_setFrequency_raw_two : spec_setFrequency_raw 48000000 2 = 23999999 := by
  unfold spec_setFrequency_raw
  norm_num

/-! ## Claims -/

/-- C1: `setValue` clamps silently and the stored value is authoritative:
for every `uint32` input `v`, after `setValue v` the stored raw value equals
`UINT32_MAX − 1` if `v = UINT32_MAX`, equals `valueMin` if `v < valueMin`,
and equals `v` otherwise; in particular for `valueMin ≤ v ≤ UINT32_MAX − 2`
the round trip through `getValue` is exact.  `setValue` is a total function
on the state, so no error is ever raised. -/
theorem setValue_clamp_spec (valueMin v : ℕ) (t : PITimer) (hv : v ≤ UINT32_MAX) :
    getValue (setValue valueMin t v) =
      (if v = UINT32_MAX then UINT32_MAX - 1 else if v < valueMin then valueMin else v) ∧
    (valueMin ≤ v → v ≤ UINT32_MAX - 2 → getValue (setValue valueMin t v) = v) := by
  refine ⟨rfl, fun h1 h2 => ?_⟩
  simp only [setValue, getValue, writeValue, UINT32_MAX] at h2 ⊢
  split_ifs with hmax hmin
  · omega
  · omega
  · rfl

/-- Closed witness for C1 at `valueMin = 720`, `v = 1000`. -/
theorem setValue_clamp_spec_witness :
    getValue (setValue 720 sampleT 1000) = 1000 :=
  (setValue_clamp_spec 720 1000 sampleT (by decide)).2 (by decide) (by decide)

/-- C3: the interrupt dispatch routine performs the channel's `clear()`
strictly before the registered callback: in the action trace of the ISR
wrapper, the flag acknowledgment is the first action, and every occurrence
of the callback invocation comes strictly after position 0. -/
theorem pitISR_clear_before_callback (t : PITimer) :
    (pitISR t).get? 0 = some (Action.clearFlag t.myID) ∧
    ∀ k, (pitISR t).get? k = some (Action.callback t.myISR) → 0 < k := by
  refine ⟨rfl, fun k hk => ?_⟩
  match k with
  | 0 => simp [pitISR] at hk
  | n + 1 => omega

/-- Closed witness for C3 on the sample channel: the acknowledgment is at
position 0 and the callback occurrence at position 1 is after it. -/
theorem pitISR_clear_before_callback_witness :
    (pitISR sampleT).get? 0 = some (Action.clearFlag sampleT.myID) ∧ 0 < 1 :=
  ⟨(pitISR_clear_before_callback sampleT).1,
   (pitISR_clear_before_callback sampleT).2 1 (by decide)⟩

/-- C8: `start cb` stores the callback and makes `running` return true,
also when called again while already running with a new callback; `stop`
makes `running` return false and is safe to call when already stopped. -/
theorem start_stop_running_spec (t : PITimer) (cb cb2 : ℕ) :
    running (start t cb) = true ∧ (start t cb).myISR = some cb ∧
    running (start (start t cb) cb2) = true ∧ (start (start t cb) cb2).myISR = some cb2 ∧
    running (stop t) = false ∧ running (stop (stop t)) = false := by
  simp [running, start, stop]

/-- C9: `reset` is a pure frame operation on the driver's logical state:
it leaves the running flag, the stored raw value and the stored callback
reference unchanged (it only pulses the hardware control register). -/
theorem reset_frame_spec (t : PITimer) :
    running (reset t) = running t ∧ getValue (reset t) = getValue t ∧
    (reset t).myISR = t.myISR := by
  simp [running, reset, getValue]

/-- C2 counterexample: the claim is false of the program at
`setPeriod(1.0)` on a 48 MHz bus.  The code evaluates
`round(F_BUS * newPeriod) - 1` in binary32 (`round` returns `float`), and
`48000000.0f - 1.0f` rounds back to `48000000.0f` because 47,999,999 is
not representable (spacing 4 at that magnitude): the stored raw value is
48,000,000, not the ideal `spec_setPeriod_raw` value 47,999,999 the claim
asserts. -/
theorem setPeriod_one_not_ideal :
    getValue (setPeriod 720 48000000 sampleT f32one) ≠ 47999999 ∧
    getValue (setPeriod 720 48000000 sampleT f32one) = 48000000 ∧
    spec_setPeriod_raw 48000000 1 = 47999999 := by
  refine ⟨by decide, by decide, spec_setPeriod_raw_one⟩

/-- C2 amended: `setPeriod` delegates to `setValue` the raw value obtained
by evaluating round-half-up(`fbus * s`) − 1 in the program's binary32
float arithmetic (`periodRaw`).  In the binary32-exact range the ideal
formula `spec_setPeriod_raw` still holds — `setPeriod(0.25)` at 48 MHz
stores 11,999,999, the ideal value — but at one second the float
subtraction of 1 from 48,000,000 is absorbed and the stored raw value is
48,000,000, not the claimed 47,999,999. -/
theorem setPeriod_binary32_spec (valueMin : ℕ) (t : PITimer)
    (hq : valueMin ≤ 11999999) (h1 : valueMin ≤ 48000000) :
    (getValue (setPeriod valueMin 48000000 t (2 ^ 147)) = 11999999 ∧
      spec_setPeriod_raw 48000000 (1 / 4) = 11999999) ∧
    (getValue (setPeriod valueMin 48000000 t f32one) = 48000000 ∧
      spec_setPeriod_raw 48000000 1 = 47999999) := by
  refine ⟨⟨?_, spec_setPeriod_raw_quarter⟩, ?_, spec_setPeriod_raw_one⟩
  · simp only [setPeriod, periodRaw_quarter]
    exact getValue_setValue_of_le valueMin 11999999 t hq (by decide)
  · simp only [setPeriod, periodRaw_one]
    exact getValue_setValue_of_le valueMin 48000000 t h1 (by decide)

/-- Closed witness for the amended C2 at `valueMin = 720`. -/
theorem setPeriod_binary32_spec_witness :
    getValue (setPeriod 720 48000000 sampleT (2 ^ 147)) = 11999999 ∧
    getValue (setPeriod 720 48000000 sampleT f32one) = 48000000 :=
  ⟨(setPeriod_binary32_spec 720 sampleT (by decide) (by decide)).1.1,
   (setPeriod_binary32_spec 720 sampleT (by decide) (by decide)).2.1⟩

/-- C4: the invariant `valueMin ≤ raw_value ≤ UINT32_MAX − 1` is established
by construction and preserved by `setValue` (for any `uint32` input) and by
`setPeriod` and `setFrequency` for every float input (the saturating
float-to-`uint32` conversion keeps the argument to `setValue` in range),
and under the invariant the sum `getValue + 1` of the getters never wraps
modulo `2 ^ 32`. -/
theorem valueInv_preserved (valueMin fbus v timerID : ℕ) (t : PITimer) (s hz : ℤ)
    (hmin : valueMin ≤ UINT32_MAX - 1) (hfb : fbus ≤ UINT32_MAX) (hv : v ≤ UINT32_MAX) :
    valueInv valueMin (init valueMin fbus timerID) ∧
    valueInv valueMin (setValue valueMin t v) ∧
    valueInv valueMin (setPeriod valueMin fbus t s) ∧
    valueInv valueMin (setFrequency valueMin fbus t hz) ∧
    (∀ u, valueInv valueMin u → (getValue u + 1) % 2 ^ 32 = getValue u + 1) := by
  refine ⟨?_, setValue_inv valueMin v t hmin hv, ?_, ?_, ?_⟩
  · simp only [init]
    exact setValue_inv valueMin fbus _ hmin hfb
  · simp only [setPeriod, periodRaw]
    exact setValue_inv valueMin _ t hmin (f2u32_le _)
  · simp only [setFrequency, frequencyRaw]
    exact setValue_inv valueMin _ t hmin (f2u32_le _)
  · intro u hu
    simp only [valueInv, UINT32_MAX] at hu
    simp only [getValue]
    omega

/-- Closed witness for C4 at the 48 MHz scenario inputs. -/
theorem valueInv_preserved_witness :
    valueInv 720 (init 720 48000000 0) ∧
    valueInv 720 (setValue 720 sampleT 1000) ∧
    valueInv 720 (setPeriod 720 48000000 sampleT f32one) ∧
    valueInv 720 (setFrequency 720 48000000 sampleT (1000 * 2 ^ 149)) ∧
    (∀ u, valueInv 720 u → (getValue u + 1) % 2 ^ 32 = getValue u + 1) :=
  valueInv_preserved 720 48000000 1000 0 sampleT f32one (1000 * 2 ^ 149)
    (by decide) (by decide) (by decide)

/-- C5 counterexample: the claim's for-all-hz formula is false of the
program.  At `hz = 2.0` on a 48 MHz bus (inside the claim's `hz > 0`
domain) the code evaluates `round(F_BUS / hz) - 1` in binary32:
`24000000.0f - 1.0f` ties between 23,999,998 and 24,000,000 (spacing 2)
and rounds to even, so the stored raw value is 24,000,000, not the ideal
`spec_setFrequency_raw` value 23,999,999. -/
theorem setFrequency_two_not_ideal :
    getValue (setFrequency 720 48000000 sampleT (2 * 2 ^ 149)) ≠ 23999999 ∧
    getValue (setFrequency 720 48000000 sampleT (2 * 2 ^ 149)) = 24000000 ∧
    spec_setFrequency_raw 48000000 2 = 23999999 := by
  refine ⟨by decide, by decide, spec_setFrequency_raw_two⟩

/-- C5 amended: for `hz > 0`, `setFrequency` delegates to `setValue` the
raw value obtained by evaluating round-half-up(`fbus / hz`) − 1 in the
program's binary32 float arithmetic (`frequencyRaw`); `hz = 0` stays an
unguarded division.  In the binary32-exact range the ideal formula
`spec_setFrequency_raw` still holds — the claimed 1 kHz scenario stores
exactly 47,999 — but at `hz = 2.0` the float subtraction rounds back up
and the stored raw value is 24,000,000, not 23,999,999. -/
theorem setFrequency_binary32_spec (valueMin : ℕ) (t : PITimer)
    (hk : valueMin ≤ 47999) (h2 : valueMin ≤ 24000000) :
    (getValue (setFrequency valueMin 48000000 t (1000 * 2 ^ 149)) = 47999 ∧
      spec_setFrequency_raw 48000000 1000 = 47999) ∧
    (getValue (setFrequency valueMin 48000000 t (2 * 2 ^ 149)) = 24000000 ∧
      spec_setFrequency_raw 48000000 2 = 23999999) := by
  refine ⟨⟨?_, spec_setFrequency_raw_1000⟩, ?_, spec_setFrequency_raw_two⟩
  · simp only [setFrequency, frequencyRaw_1000]
    exact getValue_setValue_of_le valueMin 47999 t hk (by decide)
  · simp only [setFrequency, frequencyRaw_two]
    exact getValue_setValue_of_le valueMin 24000000 t h2 (by decide)

/-- Closed witness for the amended C5 at `valueMin = 720`. -/
theorem setFrequency_binary32_spec_witness :
    getValue (setFrequency 720 48000000 sampleT (1000 * 2 ^ 149)) = 47999 ∧
    getValue (setFrequency 720 48000000 sampleT (2 * 2 ^ 149)) = 24000000 :=
  ⟨(setFrequency_binary32_spec 720 sampleT (by decide) (by decide)).1.1,
   (setFrequency_binary32_spec 720 sampleT (by decide) (by decide)).2.1⟩

/-- C6: the read views are derived exactly from the single stored raw
value: under the invariant's upper bound, `getPeriod` returns
`(getValue + 1) / fbus` and `getFrequency` returns `fbus / (getValue + 1)`;
the state stores no independent period or frequency. -/
theorem getters_derived_spec (fbus : ℕ) (t : PITimer) (h : t.myValue ≤ UINT32_MAX - 1) :
    getPeriod fbus t = ((getValue t : ℚ) + 1) / (fbus : ℚ) ∧
    getFrequency fbus t = (fbus : ℚ) / ((getValue t : ℚ) + 1) := by
  have hmod : (getValue t + 1) % 2 ^ 32 = getValue t + 1 := by
    simp only [getValue, UINT32_MAX] at *
    omega
  constructor
  · simp only [getPeriod, hmod]
    push_cast
    ring
  · simp only [getFrequency, hmod]
    push_cast
    ring

/-- Closed witness for C6 on the sample channel. -/
theorem getters_derived_spec_witness :
    getPeriod 48000000 sampleT = ((getValue sampleT : ℚ) + 1) / ((48000000 : ℕ) : ℚ) ∧
    getFrequency 48000000 sampleT = ((48000000 : ℕ) : ℚ) / ((getValue sampleT : ℚ) + 1) :=
  getters_derived_spec 48000000 sampleT (by decide)

/-- C7 counterexample: the program violates the claimed one-cycle
round-trip bound.  At the representable binary32 period
`p = 11744052 / 2 ^ 24 ≈ 0.70000005 s` on a 48 MHz bus, the binary32
product rounds the exact 33,600,002.29 cycles to 33,600,004, the stored
raw value is 33,600,004, and the period read back is
`33600005 / 48000000 ≈ 0.70000010 s` — an error of about 2.71 cycles,
strictly more than `1 / fbus`. -/
theorem setPeriod_roundtrip_violated :
    1 / ((48000000 : ℕ) : ℚ) <
      |getPeriod 48000000 (setPeriod 720 48000000 sampleT (11744052 * 2 ^ 125)) -
        fval (11744052 * 2 ^ 125)| := by
  have hst : getValue (setPeriod 720 48000000 sampleT (11744052 * 2 ^ 125)) = 33600004 := by
    decide
  have hp : getPeriod 48000000 (setPeriod 720 48000000 sampleT (11744052 * 2 ^ 125)) =
      ((33600005 : ℕ) : ℚ) / ((48000000 : ℕ) : ℚ) := by
    simp only [getPeriod, hst]
    norm_num
  rw [hp]
  have hpos : (0 : ℚ) <
      ((33600005 : ℕ) : ℚ) / ((48000000 : ℕ) : ℚ) - fval (11744052 * 2 ^ 125) := by
    unfold fval
    norm_num
  rw [abs_of_pos hpos]
  unfold fval
  norm_num

/-- C7 amended: the one-cycle round-trip bound holds exactly when the
binary32-computed raw cycle count is within one cycle of the exact
product `fbus * p` (which is the case, for instance, whenever the product
stays at or below `2 ^ 24`, where binary32 arithmetic is exact) and lands
in the clamp-free range; in general the binary32 rounding of the product
can push the error to several cycles (2.7 cycles at
`p = 11744052 / 2 ^ 24`). -/
theorem setPeriod_roundtrip_binary32_spec (valueMin fbus : ℕ) (t : PITimer) (p : ℤ)
    (hfb : 0 < fbus)
    (hlo : valueMin ≤ periodRaw fbus p)
    (hhi : periodRaw fbus p ≤ UINT32_MAX - 1)
    (herr : |((periodRaw fbus p : ℚ) + 1) - (fbus : ℚ) * fval p| ≤ 1) :
    |getPeriod fbus (setPeriod valueMin fbus t p) - fval p| ≤ 1 / (fbus : ℚ) := by
  have hfbq : (0 : ℚ) < (fbus : ℚ) := by exact_mod_cast hfb
  have hst : getValue (setPeriod valueMin fbus t p) = periodRaw fbus p := by
    simp only [setPeriod]
    exact getValue_setValue_of_le valueMin (periodRaw fbus p) t hlo hhi
  have hmod : (periodRaw fbus p + 1) % 2 ^ 32 = periodRaw fbus p + 1 := by
    simp only [UINT32_MAX] at hhi
    omega
  have hper : getPeriod fbus (setPeriod valueMin fbus t p) =
      ((periodRaw fbus p : ℚ) + 1) / (fbus : ℚ) := by
    simp only [getPeriod, hst, hmod]
    push_cast
    ring
  rw [hper]
  have e : ((periodRaw fbus p : ℚ) + 1) / (fbus : ℚ) - fval p =
      (((periodRaw fbus p : ℚ) + 1) - (fbus : ℚ) * fval p) / (fbus : ℚ) := by
    field_simp
  rw [e, abs_div, abs_of_pos hfbq]
  calc |((periodRaw fbus p : ℚ) + 1) - (fbus : ℚ) * fval p| / (fbus : ℚ) ≤
      1 / (fbus : ℚ) := by gcongr

/-- Closed witness for the amended C7: a quarter-second period at 48 MHz,
where the binary32 computation is exact and the round-trip error is 0. -/
theorem setPeriod_roundtrip_binary32_spec_witness :
    |getPeriod 48000000 (setPeriod 720 48000000 sampleT (2 ^ 147)) - fval (2 ^ 147)| ≤
      1 / ((48000000 : ℕ) : ℚ) :=
  setPeriod_roundtrip_binary32_spec 720 48000000 sampleT (2 ^ 147) (by norm_num)
    (by rw [periodRaw_quarter]; norm_num)
    (by rw [periodRaw_quarter]; decide)
    (by rw [periodRaw_quarter]; unfold fval; norm_num)

/-- C10 counterexample: `setPeriod 0.0` does not store
`UINT32_MAX − 1`.  The subtraction in `round(F_BUS * newPeriod) - 1` is
float arithmetic (`round` returns `float`), so for a zero period it yields
−1.0f, and the conversion of a negative float to `uint32_t` saturates to 0
on the target (it does not wrap modulo `2 ^ 32`); `setValue` then clamps 0
up to `valueMin` — here 720, not 4,294,967,294. -/
theorem setPeriod_zero_not_max :
    ¬ getValue (setPeriod 720 48000000 sampleT 0) = UINT32_MAX - 1 := by
  decide

/-- C10 amended: for any period input `p` whose binary32-rounded cycle
count is at most 0, the float expression `round(fbus * p) - 1` is
negative, its conversion to `uint32_t` saturates to 0, and `setValue`
clamps the result up to `valueMin` — the stored value is the minimum, not
the maximum. -/
theorem setPeriod_underflow_spec (valueMin fbus : ℕ) (t : PITimer) (p : ℤ)
    (h : froundC (fmul (f32ofNat fbus) p) ≤ 0) :
    getValue (setPeriod valueMin fbus t p) = valueMin := by
  have hneg : fsub (froundC (fmul (f32ofNat fbus) p)) f32one ≤ 0 := by
    simp only [fsub, f32one]
    exact f32ofRat_nonpos (by omega)
  have hraw : periodRaw fbus p = 0 := by
    simp only [periodRaw]
    exact f2u32_zero hneg
  simp only [setPeriod, hraw, setValue, getValue, writeValue, UINT32_MAX]
  split_ifs <;> first
    | omega
    | exact False.elim (by assumption)

/-- Closed witness for the amended C10 at a zero period. -/
theorem setPeriod_underflow_spec_witness :
    getValue (setPeriod 720 48000000 sampleT 0) = 720 :=
  setPeriod_underflow_spec 720 48000000 sampleT 0 (by decide)

end PIT
